import Mathlib

/-!
Verification of the ipymidi event-subscription and state-synchronization core.

Shallow embedding of the TypeScript sources `src/js/widget_event.ts` and
`src/js/widget_interface.ts` (plus the pure id helper `loadModel`), together
with proofs settling the frozen claims about the specification.

JavaScript values reaching the code are embedded as `JSValue`; the anywidget
state model (`model.get` / `model.set` / `model.save_changes`) is an explicit
`ModelState`; the webmidi `EventEmitter` listener store (djipevents semantics:
`addListener` appends, `removeListener(event, callback)` removes every
registration matching both the event name and the exact callback identity,
`hasListener(event, callback)` tests membership) is an explicit list of
registrations keyed by event name and callback identity.
-/

/-- Embedding of the JavaScript values the core manipulates: `undefined`,
`NaN`, numbers (as rationals), strings, booleans, arrays and plain objects
(ordered field lists). -/
inductive JSValue where
  | undefined : JSValue
  | nan : JSValue
  | num (q : Rat) : JSValue
  | str (s : String) : JSValue
  | bool (b : Bool) : JSValue
  | arr (elems : List JSValue) : JSValue
  | obj (fields : List (String × JSValue)) : JSValue
deriving Repr

/-- The only JavaScript error the embedded code can raise: a `TypeError` from
reading a property off `undefined`. -/
inductive JSError where
  | typeError : JSError
deriving Repr, DecidableEq

/-- JavaScript property access `v[k]`: throws `TypeError` when `v` is
`undefined`; on an object returns the field's value, or `undefined` when the
field is absent; on any other value (primitives, arrays) plain named access
yields `undefined` for the names used by this code. -/
def jsIndex : JSValue → String → Except JSError JSValue
  | .undefined, _ => .error .typeError
  | .obj fields, k =>
      .ok (((fields.find? (fun p => p.1 = k)).map (fun p => p.2)).getD .undefined)
  | _, _ => .ok .undefined

/-- Character-list core of `toCamelCase` in `widget_event.ts`:
`str.replace(/_([a-z])/g, (_, p1) => p1.toUpperCase())`, i.e. a left-to-right,
non-overlapping replacement of each underscore followed by a lowercase ASCII
letter by that letter uppercased. -/
def camelChars : List Char → List Char
  | [] => []
  | '_' :: c :: rest =>
      if 'a' ≤ c ∧ c ≤ 'z' then c.toUpper :: camelChars rest
      else '_' :: camelChars (c :: rest)
  | c :: rest => c :: camelChars rest

/-- Function `toCamelCase` from `widget_event.ts`, on strings. -/
def toCamelCase (s : String) : String :=
  ⟨camelChars s.data⟩

/-- The test `name.startsWith('note_')` from `getPropGetter`, computed on the
character list of the name. -/
def hasNoteTag : List Char → Bool
  | 'n' :: 'o' :: 't' :: 'e' :: '_' :: _ => true
  | _ => false

/-- The note-branch name computation of `getPropGetter`:
`name.replace('note_', '')`.  JavaScript `String.replace` with a string
pattern substitutes only the first occurrence; under the guard
`name.startsWith('note_')` the first occurrence is the leading prefix, so the
call removes exactly the first five characters. -/
def stripNoteTag (name : String) : String :=
  ⟨name.data.drop 5⟩

/-- Function `getPropGetter` from `widget_event.ts`, with the getter already applied to
the event: a name starting with `note_` is read off the nested `e.note`
sub-object under the camel-cased remainder of the name; any other name is
camel-cased and read directly off the event. -/
def getPropGetter (name : String) (e : JSValue) : Except JSError JSValue :=
  if hasNoteTag name.data then
    (jsIndex e "note").bind (fun note => jsIndex note (toCamelCase (stripNoteTag name)))
  else
    jsIndex e (toCamelCase name)

/-- Boolean test that extraction of `name` from `e` does not throw. -/
def extractOk (name : String) (e : JSValue) : Bool :=
  match getPropGetter name e with
  | .ok _ => true
  | .error _ => false

/-- The value extraction yields when it does not throw
(`undefined` in the throwing case, which is never used under `extractOk`). -/
def extractD (name : String) (e : JSValue) : JSValue :=
  match getPropGetter name e with
  | .ok v => v
  | .error _ => .undefined

/-- The anywidget state model as seen by the embedded code: the attribute map
(unique keys) together with the number of `model.save_changes()` calls made so
far. -/
structure ModelState where
  attrs : List (String × JSValue)
  saves : Nat
deriving Repr

/-- Accessor `model.get(k)`: the attribute's value, `undefined` when unset. -/
def getAttr (m : ModelState) (k : String) : JSValue :=
  (((m.attrs.find? (fun p => p.1 = k)).map (fun p => p.2)).getD .undefined)

/-- Mutator `model.set(k, v)`: update the attribute map at `k` (keys stay unique). -/
def setAttr (m : ModelState) (k : String) (v : JSValue) : ModelState :=
  { m with attrs := (k, v) :: m.attrs.filter (fun p => ¬ p.1 = k) }

/-- Persistence call `model.save_changes()`. -/
def saveChanges (m : ModelState) : ModelState :=
  { m with saves := m.saves + 1 }

/-- One observable model operation performed by a callback, recorded in order:
a `model.set` or a `model.save_changes`. -/
inductive Op where
  | set (attr : String) (v : JSValue) : Op
  | save : Op
deriving Repr

/-- Whether an operation is a persistence call. -/
def Op.isSave : Op → Bool
  | .save => true
  | .set _ _ => false

/-- JavaScript `x + 1` as used on `model.get('count')`: numeric increment; any
non-numeric operand (never produced by this code, where `count` is a number)
coerces to `NaN`-like garbage, abstracted as `nan`. -/
def jsAddOne : JSValue → JSValue
  | .num q => .num (q + 1)
  | _ => .nan

/-- The `propNames.forEach` loop of the Subscription callback in
`widget_event.ts`: write each configured property path's extracted value to
the same-named model attribute, in declared order.  Returns the model state
reached, the trace of operations actually performed, and whether a getter
threw (a `note_`-prefixed path read off an event with no `note` sub-object);
a throw aborts the loop after the sets already performed, as in JavaScript. -/
def writeProps (e : JSValue) : List String → ModelState → ModelState × List Op × Bool
  | [], m => (m, [], false)
  | pn :: rest, m =>
    match getPropGetter pn e with
    | .error _ => (m, [], true)
    | .ok v =>
        let out := writeProps e rest (setAttr m pn v)
        (out.1, Op.set pn v :: out.2.1, out.2.2)

/-- The Subscription callback of `initialize_event` (`widget_event.ts`,
lines 57-63), run on one delivered hardware event `e`: write the extracted
properties in declared order, then `model.set('count', model.get('count')+1)`,
then one `model.save_changes()`.  A getter throw propagates out of the
callback: the remaining sets, the count increment and the save do not run. -/
def runCallback (propNames : List String) (e : JSValue) (m : ModelState) :
    ModelState × List Op × Bool :=
  match writeProps e propNames m with
  | (m', ops, true) => (m', ops, true)
  | (m', ops, false) =>
      let c := jsAddOne (getAttr m' "count")
      (saveChanges (setAttr m' "count" c), ops ++ [Op.set "count" c, Op.save], false)

/-! The Subscription (Event Tracker) side: `initialize_event`.

The resolved target (the global `WebMidi` object or one input port) is a
djipevents `EventEmitter`; its listener store is a list of registrations
`(eventName, callback)` in attachment order.  Callback identity is embedded as
a natural number: every run of `initialize_event` creates a fresh closure, so
the state carries a `nextId` counter from which each run draws its callback
id.  All callbacks attached here belong to runs for the same widget model and
share the same configured property paths. -/

/-- State of one Subscription's target emitter and paired widget model. -/
structure EvState where
  emitter : List (String × Nat)
  model : ModelState
  enabled : Bool
  nextId : Nat
deriving Repr

/-- djipevents `hasListener(event, callback)`. -/
def hasL (ev : String) (cid : Nat) (l : List (String × Nat)) : Bool :=
  l.any (fun p => p.1 = ev ∧ p.2 = cid)

/-- djipevents `removeListener(event, callback)`: drop every registration
matching both the event name and the exact callback. -/
def removeL (ev : String) (cid : Nat) (l : List (String × Nat)) : List (String × Nat) :=
  l.filter (fun p => ¬ (p.1 = ev ∧ p.2 = cid))

/-- djipevents `addListener(event, callback)`: append a registration. -/
def addL (ev : String) (cid : Nat) (l : List (String × Nat)) : List (String × Nat) :=
  l ++ [(ev, cid)]

/-- Number of live registrations of callback `cid` for event `ev`. -/
def countL (ev : String) (cid : Nat) (l : List (String × Nat)) : Nat :=
  l.countP (fun p => decide (p.1 = ev ∧ p.2 = cid))

/-- The attachment phase of `initialize_event` (`widget_event.ts`,
lines 57-83): create the callback closure (a fresh identity drawn from
`nextId`), then `target.removeListener(eventName, callback)` (the
`// cleanup (HMR)` line) followed by `target.addListener(eventName, callback)`. -/
def initEvent (ev : String) (s : EvState) : EvState :=
  let cid := s.nextId
  { s with emitter := addL ev cid (removeL ev cid s.emitter), nextId := cid + 1 }

/-- The `change:enabled` handler installed by `initialize_event`
(`widget_event.ts`, lines 85-93) for the run that owns callback `cid`,
invoked with the already-updated `enabled` attribute: when enabled, attach the
callback only if `hasListener` is false; when disabled, remove it. -/
def onEnabledChange (ev : String) (cid : Nat) (s : EvState) : EvState :=
  if s.enabled then
    if hasL ev cid s.emitter then s
    else { s with emitter := addL ev cid s.emitter }
  else
    { s with emitter := removeL ev cid s.emitter }

/-- Setting the model's `enabled` attribute from outside: a Backbone `change`
event fires the handler only when the stored value actually changes. -/
def setEnabled (ev : String) (cid : Nat) (flag : Bool) (s : EvState) : EvState :=
  if s.enabled = flag then s
  else onEnabledChange ev cid { s with enabled := flag }

/-- Delivery of one hardware event named `ev` with payload `e` on the target
emitter, in the scenario where every registration for `ev` is a callback of
some `initialize_event` run for this widget model (as in the reload scenario):
each registration fires once, in attachment order, each invocation running the
Subscription callback on the shared model. -/
def fireEventAll (propNames : List String) (e : JSValue) (ev : String) (s : EvState) :
    EvState :=
  { s with
    model := (s.emitter.filter (fun p => p.1 = ev)).foldl
      (fun m _ => (runCallback propNames e m).1) s.model }

/-- Delivery of one hardware event named `ev` with payload `e`, restricted to
the invocations of the single run-`cid` callback: that callback fires once per
live registration of `(ev, cid)`. -/
def fireEventFor (propNames : List String) (e : JSValue) (ev : String) (cid : Nat)
    (s : EvState) : EvState :=
  { s with
    model := (fun m => (runCallback propNames e m).1)^[countL ev cid s.emitter] s.model }

/-! The Interface Manager side: `widget_interface.ts`. -/

/-- A resolved listener target: the global `WebMidi` object or one input
port by id. -/
inductive Target where
  | webmidi : Target
  | input (id : String) : Target
deriving Repr, DecidableEq

/-- Function `loadModel` (`widget_interface.ts`, lines 8-13): the model id passed to
`widget_manager.get_model` is `modelId.slice("IPY_MODEL_".length)`, i.e. the
input with its first ten characters unconditionally removed. -/
def resolveModelId (modelId : String) : String :=
  ⟨modelId.data.drop 10⟩

/-- Descriptive attributes of one connected MIDI input device
(`InputProps`). -/
structure InputProps where
  id : String
  name : String
  manufacturer : String
  connection : String
  state : String
deriving Repr, DecidableEq

/-- Conversion of `InputProps` to the JavaScript object pushed by `updateInputs`. -/
def inputPropsToJS (d : InputProps) : JSValue :=
  .obj [("id", .str d.id), ("name", .str d.name), ("manufacturer", .str d.manufacturer),
        ("connection", .str d.connection), ("state", .str d.state)]

/-- Function `updateInputs` (`widget_interface.ts`, lines 97-111): rebuild the
`_inputs` snapshot list wholesale from the connected devices and set it on the
interface model. -/
def updateInputs (inputs : List InputProps) (m : ModelState) : ModelState :=
  setAttr m "_inputs" (.arr (inputs.map inputPropsToJS))

/-- One live hardware-level listener attachment made through
`widget_interface.ts`: its emitter, event name, the resolved id of the remote
event model its callback writes to (`none` for the interface's own
`portschanged` listener), and the listener handle identity. -/
structure Attachment where
  target : Target
  eventName : String
  modelId : Option String
  handle : Nat
deriving Repr, DecidableEq

/-- Value of one `events` registry entry: `Listener | Listener[]`. -/
inductive LVal where
  | single (l : Nat) : LVal
  | multi (ls : List Nat) : LVal
deriving Repr, DecidableEq

/-- Argument record `AddListenerArgs` of `widget_interface.ts`. -/
structure AddListenerArgs where
  target_type : String
  target_id : String
  event_model_id : String
  event_name : String
  event_props : List String
  event_id : String
deriving Repr

/-- Argument record `RemoveListenerArgs` of `widget_interface.ts`. -/
structure RemoveListenerArgs where
  event_id : String
deriving Repr

/-- Argument payload carried by a custom-message command. -/
inductive CmdArgs where
  | noArgs : CmdArgs
  | add (a : AddListenerArgs) : CmdArgs
  | remove (a : RemoveListenerArgs) : CmdArgs
deriving Repr

/-- An inbound custom-message command `{action, args}`. -/
structure Command where
  action : String
  args : CmdArgs
deriving Repr

/-- State owned by the Interface Manager: all live hardware-level listener
attachments (on the global object and on input ports), the module-level
`events` registry map, the fresh-handle counter, and the `MIDIInterface`
widget model. -/
structure IfaceState where
  attached : List Attachment
  events : List (String × LVal)
  nextId : Nat
  model : ModelState
deriving Repr

/-- JavaScript `Map.get`. -/
def findKey (m : List (String × LVal)) (k : String) : Option LVal :=
  (m.find? (fun p => p.1 = k)).map (fun p => p.2)

/-- JavaScript `Map.set`: overwrite any existing entry for the key. -/
def setKey (m : List (String × LVal)) (k : String) (v : LVal) : List (String × LVal) :=
  (k, v) :: m.filter (fun p => ¬ p.1 = k)

/-- JavaScript `Map.delete`. -/
def delKey (m : List (String × LVal)) (k : String) : List (String × LVal) :=
  m.filter (fun p => ¬ p.1 = k)

/-- Target resolution shared by `addListener`:
`WebMidi.getInputById(target_id)` for `target_type === 'input'`, else the
global `WebMidi` object (the embedding covers the executions where the input
id resolves). -/
def resolveTarget (a : AddListenerArgs) : Target :=
  if a.target_type = "input" then .input a.target_id else .webmidi

/-- Function `addListener` (`widget_interface.ts`, lines 32-56), after the loaded
model promise resolves: attach a fresh listener for `event_name` on the
resolved target, whose callback writes to the remote model looked up under
`resolveModelId args.event_model_id`, and record the handle in the `events`
registry under `args.event_id` (overwriting any previous entry for that
key). -/
def addListenerCmd (a : AddListenerArgs) (s : IfaceState) : IfaceState :=
  { s with
    attached := s.attached ++
      [⟨resolveTarget a, a.event_name, some (resolveModelId a.event_model_id), s.nextId⟩],
    events := setKey s.events a.event_id (.single s.nextId),
    nextId := s.nextId + 1 }

/-- Function `removeListener` (`widget_interface.ts`, lines 58-75): look up
`args.event_id`; when absent, return with no change; when present, call
`.remove()` on the single handle or on each handle of the array (detaching it
from whatever emitter holds it), then delete the registry entry. -/
def removeListenerCmd (a : RemoveListenerArgs) (s : IfaceState) : IfaceState :=
  match findKey s.events a.event_id with
  | none => s
  | some (.single l) =>
      { s with attached := s.attached.filter (fun x => ¬ x.handle = l),
               events := delKey s.events a.event_id }
  | some (.multi ls) =>
      { s with attached := s.attached.filter (fun x => ¬ x.handle ∈ ls),
               events := delKey s.events a.event_id }

/-- The body of `WebMidi.enable().then(...)` run for each `enable` command
(`widget_interface.ts`, lines 120-129); `WebMidi.enable()` resolves at once
when the interface is already enabled, so the body runs for every successful
enable command: set `enabled`, publish the inputs snapshot, save, and attach a
freshly created `portschanged` listener to the global object. -/
def enableCmdBody (inputs : List InputProps) (s : IfaceState) : IfaceState :=
  { s with
    model := saveChanges (updateInputs inputs (setAttr s.model "enabled" (.bool true))),
    attached := s.attached ++ [⟨.webmidi, "portschanged", none, s.nextId⟩],
    nextId := s.nextId + 1 }

/-- The `msg:custom` handler installed by `unstable_initialize`
(`widget_interface.ts`, lines 118-137): dispatch on the action string; an
action that is none of `enable`, `add_listener` and `remove_listener` falls
through every branch and the handler returns with no effect. -/
def handleCommand (inputs : List InputProps) (c : Command) (s : IfaceState) : IfaceState :=
  if c.action = "enable" then enableCmdBody inputs s
  else if c.action = "add_listener" then
    match c.args with
    | .add a => addListenerCmd a s
    | _ => s
  else if c.action = "remove_listener" then
    match c.args with
    | .remove a => removeListenerCmd a s
    | _ => s
  else s

/-- Processing a sequence of inbound commands in order. -/
def runCommands (inputs : List InputProps) (cs : List Command) (s : IfaceState) :
    IfaceState :=
  cs.foldl (fun t c => handleCommand inputs c t) s

/-- The clean-up prefix of `unstable_initialize` (`widget_interface.ts`,
lines 113-117): `WebMidi.removeListener()` with no arguments clears every
listener attached to the global `WebMidi` object (and only that emitter), and
`events.clear()` empties the registry map without calling `.remove()` on the
stored handles. -/
def initInterface (s : IfaceState) : IfaceState :=
  { s with attached := s.attached.filter (fun x => ¬ x.target = Target.webmidi),
           events := [] }

/-- Number of standing `portschanged` listeners on the global object. -/
def portsCount (s : IfaceState) : Nat :=
  (s.attached.filter (fun x => x.target = Target.webmidi ∧ x.eventName = "portschanged")).length

/-- A port-topology change: every standing `portschanged` listener fires once,
in attachment order, each rebuilding and republishing the `_inputs`
snapshot (`updateInputs` plus one `save_changes`). -/
def firePortsChanged (inputs : List InputProps) (s : IfaceState) : IfaceState :=
  { s with
    model := (s.attached.filter
        (fun x => x.target = Target.webmidi ∧ x.eventName = "portschanged")).foldl
      (fun m _ => saveChanges (updateInputs inputs m)) s.model }

/-! Concrete states and commands used by the witness and counterexample
theorems. -/

/-- The sample event of the specification:
`{note: {identifier: 60}, velocity: 0.8, timestamp: 123}`. -/
def noteEvent : JSValue :=
  .obj [("note", .obj [("identifier", .num 60)]), ("velocity", .num (4/5)),
        ("timestamp", .num 123)]

/-- A Subscription model before any delivery. -/
def modelC0 : ModelState := ⟨[("count", .num 0), ("timestamp", .num 0)], 0⟩

/-- A Subscription's state as created fresh (no listener attached yet, model
with `count` zero, `enabled` true, no callback identity drawn yet). -/
def evS0 : EvState := ⟨[], ⟨[("count", .num 0)], 0⟩, true, 0⟩

/-- A Subscription just after its `initialize_event` run: callback `0`
attached once, model enabled. -/
def evS1 : EvState := ⟨[("noteon", 0)], ⟨[("count", .num 0)], 0⟩, true, 1⟩

/-- The `enable` command. -/
def enableCmd : Command := ⟨"enable", .noArgs⟩

/-- Boolean test for the three action strings the handler dispatches on. -/
def knownAction (a : String) : Bool :=
  a = "enable" || a = "add_listener" || a = "remove_listener"

/-- One connected input device. -/
def inputA : InputProps := ⟨"A1", "Virtual MIDI", "Apple Inc.", "open", "connected"⟩

/-- The Interface Manager's state at page load: nothing attached, empty
registry, interface model disabled. -/
def ifS0 : IfaceState := ⟨[], [], 0, ⟨[("enabled", .bool false)], 0⟩⟩

/-- An `add_listener` command targeting input port `A1`. -/
def addInputCmd : Command :=
  ⟨"add_listener", .add ⟨"input", "A1", "IPY_MODEL_abcdef", "noteon", ["value"], "x"⟩⟩

/-- The handles stored in the registry under `k`, as a list. -/
def regHandles (s : IfaceState) (k : String) : List Nat :=
  match findKey s.events k with
  | none => []
  | some (.single l) => [l]
  | some (.multi ls) => ls

/-- The Interface Manager's state right after `addInputCmd` registered
listener `0` under identifier `x`. -/
def ifS2 : IfaceState := handleCommand [inputA] addInputCmd ifS0

/-! Helper lemmas. -/

theorem getAttr_setAttr_self (m : ModelState) (k : String) (v : JSValue) :
    getAttr (setAttr m k v) k = v := by
  simp [getAttr, setAttr]

theorem find?_key_filter_ne (l : List (String × JSValue)) (k k' : String)
    (h : k' ≠ k) :
    List.find? (fun p => p.1 = k') (l.filter (fun p => ¬ p.1 = k))
      = List.find? (fun p => p.1 = k') l := by
  induction l with
  | nil => rfl
  | cons p rest ih =>
      by_cases hpk : p.1 = k
      · have hp' : ¬ (p.1 = k') := by rw [hpk]; exact fun hh => h hh.symm
        rw [List.filter_cons_of_neg (by simpa using hpk),
          List.find?_cons_of_neg _ (by simpa using hp'), ih]
      · rw [List.filter_cons_of_pos (by simpa using hpk)]
        by_cases hp' : p.1 = k'
        · rw [List.find?_cons_of_pos _ (by simpa using hp'),
            List.find?_cons_of_pos _ (by simpa using hp')]
        · rw [List.find?_cons_of_neg _ (by simpa using hp'),
            List.find?_cons_of_neg _ (by simpa using hp'), ih]

theorem getAttr_setAttr_ne (m : ModelState) (k k' : String) (v : JSValue)
    (h : k' ≠ k) : getAttr (setAttr m k v) k' = getAttr m k' := by
  unfold getAttr setAttr
  rw [List.find?_cons_of_neg _ (by simpa using fun hh : k = k' => h hh.symm),
    find?_key_filter_ne _ _ _ h]

theorem saves_setAttr (m : ModelState) (k : String) (v : JSValue) :
    (setAttr m k v).saves = m.saves := rfl

/-- Under successful extraction of every path, the `forEach` loop does not
throw, and its trace is exactly one `set` per declared path, in declared
order, carrying the extracted values. -/
theorem writeProps_trace (e : JSValue) (ps : List String) (m : ModelState)
    (hok : ∀ pn ∈ ps, extractOk pn e = true) :
    (writeProps e ps m).2.1 = ps.map (fun pn => Op.set pn (extractD pn e))
    ∧ (writeProps e ps m).2.2 = false := by
  induction ps generalizing m with
  | nil => exact ⟨rfl, rfl⟩
  | cons pn rest ih =>
      have hhd := hok pn (by simp)
      unfold writeProps
      cases hget : getPropGetter pn e with
      | error err => simp [extractOk, hget] at hhd
      | ok v =>
          have hrest := ih (setAttr m pn v) (fun q hq => hok q (by simp [hq]))
          simp [hrest.1, hrest.2, extractD, hget]

/-- The `forEach` loop never calls `save_changes`. -/
theorem writeProps_saves (e : JSValue) (ps : List String) (m : ModelState) :
    (writeProps e ps m).1.saves = m.saves := by
  induction ps generalizing m with
  | nil => rfl
  | cons pn rest ih =>
      unfold writeProps
      cases hget : getPropGetter pn e with
      | error err => rfl
      | ok v => simpa using ih (setAttr m pn v)

/-- Attribute values after the `forEach` loop, under successful extraction:
each declared path holds its extracted value (every write of a repeated path
writes the same extracted value, extraction being pure), and every other
attribute is untouched. -/
theorem writeProps_getAttr (e : JSValue) (ps : List String) (m : ModelState)
    (hok : ∀ pn ∈ ps, extractOk pn e = true) (q : String) :
    getAttr (writeProps e ps m).1 q =
      if q ∈ ps then extractD q e else getAttr m q := by
  induction ps generalizing m with
  | nil => simp [writeProps]
  | cons pn rest ih =>
      have hhd := hok pn (by simp)
      unfold writeProps
      cases hget : getPropGetter pn e with
      | error err => simp [extractOk, hget] at hhd
      | ok v =>
          have hrest := ih (setAttr m pn v) (fun r hr => hok r (by simp [hr]))
          simp only [hrest]
          by_cases hq : q ∈ rest
          · simp [hq]
          · by_cases hq' : q = pn
            · subst hq'
              simp [hq, getAttr_setAttr_self, extractD, hget]
            · simp [hq, hq', getAttr_setAttr_ne _ _ _ _ hq']

theorem getAttr_saveChanges (m : ModelState) (k : String) :
    getAttr (saveChanges m) k = getAttr m k := rfl

/-- When the `forEach` loop does not throw, `runCallback` finishes with the
count update and the single save. -/
theorem runCallback_eq (ps : List String) (e : JSValue) (m : ModelState)
    (h : (writeProps e ps m).2.2 = false) :
    runCallback ps e m =
      (saveChanges (setAttr (writeProps e ps m).1 "count"
          (jsAddOne (getAttr (writeProps e ps m).1 "count"))),
       (writeProps e ps m).2.1
         ++ [Op.set "count" (jsAddOne (getAttr (writeProps e ps m).1 "count")), Op.save],
       false) := by
  unfold runCallback
  rw [show writeProps e ps m
      = ((writeProps e ps m).1, (writeProps e ps m).2.1, false) from by rw [← h]]

/-! Claims. -/

/-- C2: for every delivered hardware event whose configured property paths
all extract successfully, the Subscription callback's operation trace is
exactly one `set` per configured path with its extracted value, in declared
path order, followed by the `count` increment by exactly one, followed by
exactly one `save_changes` for the whole event; the resulting attributes hold
the extracted values and the model is saved exactly once more. -/
theorem callback_order_count_single_save
    (propNames : List String) (e : JSValue) (m : ModelState) (c : Rat)
    (hok : ∀ pn ∈ propNames, extractOk pn e = true)
    (hcount : "count" ∉ propNames)
    (hc : getAttr m "count" = .num c) :
    (runCallback propNames e m).2.1 =
        propNames.map (fun pn => Op.set pn (extractD pn e))
          ++ [Op.set "count" (.num (c + 1)), Op.save]
    ∧ ((runCallback propNames e m).2.1.countP Op.isSave) = 1
    ∧ getAttr (runCallback propNames e m).1 "count" = .num (c + 1)
    ∧ (∀ pn ∈ propNames, getAttr (runCallback propNames e m).1 pn = extractD pn e)
    ∧ (runCallback propNames e m).1.saves = m.saves + 1 := by
  have hth := (writeProps_trace e propNames m hok).2
  have htr := (writeProps_trace e propNames m hok).1
  have heq := runCallback_eq propNames e m hth
  have hmidc : getAttr (writeProps e propNames m).1 "count" = JSValue.num c := by
    rw [writeProps_getAttr e propNames m hok "count", if_neg hcount, hc]
  have haddc : jsAddOne (getAttr (writeProps e propNames m).1 "count")
      = JSValue.num (c + 1) := by rw [hmidc]; rfl
  refine ⟨?_, ?_, ?_, ?_, ?_⟩
  · rw [heq]; rw [htr, haddc]
  · rw [heq]
    simp only [List.countP_append, htr]
    rw [List.countP_eq_zero.mpr (by
      intro a ha
      obtain ⟨pn, _, rfl⟩ := List.mem_map.mp ha
      simp [Op.isSave])]
    rfl
  · rw [heq, haddc]
    simp only [getAttr_saveChanges]
    exact getAttr_setAttr_self _ _ _
  · intro pn hpn
    have hne : pn ≠ "count" := fun hpe => hcount (hpe ▸ hpn)
    rw [heq]
    simp only [getAttr_saveChanges]
    rw [getAttr_setAttr_ne _ _ _ _ hne,
      writeProps_getAttr e propNames m hok pn, if_pos hpn]
  · rw [heq]
    show ((writeProps e propNames m).1.saves) + 1 = m.saves + 1
    rw [writeProps_saves]

/-- Witness for C2 on the specification's own example: paths
`["note_identifier", "velocity"]` against `noteEvent` produce
`note_identifier = 60`, `velocity = 0.8`, `count` incremented by exactly one,
and exactly one persistence call. -/
theorem callback_order_count_single_save_witness :
    (runCallback ["note_identifier", "velocity"] noteEvent modelC0).2.1 =
        [Op.set "note_identifier" (.num 60), Op.set "velocity" (.num (4/5)),
         Op.set "count" (.num (0 + 1)), Op.save]
    ∧ ((runCallback ["note_identifier", "velocity"] noteEvent modelC0).2.1.countP Op.isSave) = 1
    ∧ getAttr (runCallback ["note_identifier", "velocity"] noteEvent modelC0).1
        "note_identifier" = .num 60
    ∧ getAttr (runCallback ["note_identifier", "velocity"] noteEvent modelC0).1
        "velocity" = .num (4/5)
    ∧ getAttr (runCallback ["note_identifier", "velocity"] noteEvent modelC0).1
        "count" = .num (0 + 1)
    ∧ (runCallback ["note_identifier", "velocity"] noteEvent modelC0).1.saves
        = modelC0.saves + 1 := by
  have h := callback_order_count_single_save ["note_identifier", "velocity"]
    noteEvent modelC0 0 (by decide) (by decide) rfl
  exact ⟨h.1.trans rfl, h.2.1,
    (h.2.2.2.1 "note_identifier" (by decide)).trans rfl,
    (h.2.2.2.1 "velocity" (by decide)).trans rfl,
    h.2.2.1, h.2.2.2.2⟩

theorem countL_removeL (ev : String) (cid : Nat) (l : List (String × Nat)) :
    countL ev cid (removeL ev cid l) = 0 := by
  unfold countL removeL
  rw [List.countP_filter, List.countP_eq_zero]
  intro a _
  by_cases h : a.1 = ev ∧ a.2 = cid <;> simp [h]

theorem countL_addL (ev : String) (cid : Nat) (l : List (String × Nat)) :
    countL ev cid (addL ev cid l) = countL ev cid l + 1 := by
  unfold countL addL
  rw [List.countP_append]
  simp

theorem countL_eq_zero_of_hasL_false (ev : String) (cid : Nat)
    (l : List (String × Nat)) (h : hasL ev cid l = false) :
    countL ev cid l = 0 := by
  unfold hasL at h
  unfold countL
  rw [List.countP_eq_zero]
  intro a ha
  rw [List.any_eq_false] at h
  exact h a ha

theorem setEnabled_enabled (ev : String) (cid : Nat) (f : Bool) (s : EvState) :
    (setEnabled ev cid f s).enabled = f := by
  unfold setEnabled onEnabledChange
  by_cases h : s.enabled = f
  · rw [if_pos h]; exact h
  · rw [if_neg h]
    split
    · split
      · rfl
      · rfl
    · rfl

theorem setEnabled_noop (ev : String) (cid : Nat) (f : Bool) (s : EvState)
    (h : s.enabled = f) : setEnabled ev cid f s = s := by
  unfold setEnabled
  rw [if_pos h]

theorem countL_le_one_setEnabled (ev : String) (cid : Nat) (f : Bool) (s : EvState)
    (h : countL ev cid s.emitter ≤ 1) :
    countL ev cid (setEnabled ev cid f s).emitter ≤ 1 := by
  unfold setEnabled onEnabledChange
  by_cases h1 : s.enabled = f
  · rw [if_pos h1]; exact h
  · rw [if_neg h1]
    cases f with
    | false =>
        have h0 := countL_removeL ev cid s.emitter
        simp [h0]
    | true =>
        simp only [if_pos rfl]
        by_cases h2 : hasL ev cid s.emitter = true
        · rw [if_pos h2]; exact h
        · rw [if_neg h2]
          have h0 := countL_eq_zero_of_hasL_false ev cid s.emitter
            (Bool.eq_false_iff.mpr h2)
          simp [countL_addL, h0]

theorem setEnabled_false_zero (ev : String) (cid : Nat) (s : EvState)
    (h : s.enabled = true) :
    countL ev cid (setEnabled ev cid false s).emitter = 0 := by
  unfold setEnabled onEnabledChange
  rw [if_neg (by simp [h])]
  have h0 := countL_removeL ev cid s.emitter
  simp [h0]

/-- C1 (code bug): running `initialize_event` twice for the same model,
target and event name — the hot-reload scenario its `// cleanup (HMR)` line
addresses — leaves BOTH callbacks attached: the second run's
`target.removeListener(eventName, callback)` passes the closure just created
by that run, which never compares equal to the first run's closure, so the
defensive removal removes nothing.  One hardware event is then delivered
twice: `count` rises by two and `save_changes` runs twice, violating the
claimed at-most-one-callback invariant and single delivery. -/
theorem hmr_reinit_double_delivery :
    (initEvent "noteon" (initEvent "noteon" evS0)).emitter = [("noteon", 0), ("noteon", 1)]
    ∧ (fireEventAll [] (.obj []) "noteon"
        (initEvent "noteon" (initEvent "noteon" evS0))).model.saves = 2
    ∧ getAttr (fireEventAll [] (.obj []) "noteon"
        (initEvent "noteon" (initEvent "noteon" evS0))).model "count" = .num 2 := by
  refine ⟨rfl, rfl, ?_⟩
  show JSValue.num (0 + 1 + 1) = JSValue.num 2
  norm_num

/-- C5: toggling the Subscription's `enabled` attribute is idempotent and
safe.  (a) From any state where the run's callback is attached at most once,
any number of changes to `true` keeps it attached at most once (the handler
re-attaches only when `hasListener` is false).  (b) From any enabled state, a
change to `false` — followed by any number of further `false` writes, which
fire no change event — leaves zero registrations of the callback, and a
hardware event delivered then reaches the state model zero times (the model
is unchanged). -/
theorem set_enabled_idempotent_attach_detach (ev : String) (cid : Nat) :
    (∀ (s : EvState), countL ev cid s.emitter ≤ 1 →
      ∀ n, countL ev cid ((setEnabled ev cid true)^[n] s).emitter ≤ 1)
    ∧ (∀ (s : EvState), s.enabled = true → ∀ n,
        countL ev cid ((setEnabled ev cid false)^[n + 1] s).emitter = 0
        ∧ ∀ (propNames : List String) (e : JSValue),
          (fireEventFor propNames e ev cid
              ((setEnabled ev cid false)^[n + 1] s)).model
            = ((setEnabled ev cid false)^[n + 1] s).model) := by
  constructor
  · intro s h n
    induction n generalizing s with
    | zero => exact h
    | succ k ih =>
        rw [Function.iterate_succ_apply]
        exact ih _ (countL_le_one_setEnabled ev cid true s h)
  · intro s hs n
    have hstable : ∀ k, (setEnabled ev cid false)^[k] (setEnabled ev cid false s)
        = setEnabled ev cid false s := by
      intro k
      induction k with
      | zero => rfl
      | succ j ih =>
          rw [Function.iterate_succ_apply, setEnabled_noop ev cid false _
            (setEnabled_enabled ev cid false s)]
          exact ih
    have hit : (setEnabled ev cid false)^[n + 1] s = setEnabled ev cid false s := by
      rw [Function.iterate_succ_apply, hstable]
    have hzero : countL ev cid ((setEnabled ev cid false)^[n + 1] s).emitter = 0 := by
      rw [hit]
      exact setEnabled_false_zero ev cid s hs
    refine ⟨hzero, ?_⟩
    intro propNames e
    unfold fireEventFor
    rw [hzero]
    rfl

/-- Witness for C5 at a concrete post-initialization state: two further
enables keep one attachment; three disables detach and a delivered event
leaves the model untouched. -/
theorem set_enabled_idempotent_attach_detach_witness :
    countL "noteon" 0 ((setEnabled "noteon" 0 true)^[2] evS1).emitter ≤ 1
    ∧ countL "noteon" 0 ((setEnabled "noteon" 0 false)^[3] evS1).emitter = 0
    ∧ (fireEventFor ["velocity"] noteEvent "noteon" 0
        ((setEnabled "noteon" 0 false)^[3] evS1)).model
      = ((setEnabled "noteon" 0 false)^[3] evS1).model := by
  have h := set_enabled_idempotent_attach_detach "noteon" 0
  exact ⟨h.1 evS1 (by decide) 2, (h.2 evS1 rfl 2).1,
    (h.2 evS1 rfl 2).2 ["velocity"] noteEvent⟩

/-- Under successful extraction, the callback trace in explicit form. -/
theorem runCallback_trace_ops (ps : List String) (e : JSValue) (m : ModelState)
    (hok : ∀ pn ∈ ps, extractOk pn e = true) :
    (runCallback ps e m).2.1 = ps.map (fun pn => Op.set pn (extractD pn e))
      ++ [Op.set "count" (jsAddOne (getAttr (writeProps e ps m).1 "count")), Op.save] := by
  rw [runCallback_eq ps e m (writeProps_trace e ps m hok).2,
    (writeProps_trace e ps m hok).1]

/-- Under successful extraction, the callback makes exactly one persistence
call per event. -/
theorem runCallback_single_save (ps : List String) (e : JSValue) (m : ModelState)
    (hok : ∀ pn ∈ ps, extractOk pn e = true) :
    (runCallback ps e m).2.1.countP Op.isSave = 1 := by
  rw [runCallback_trace_ops ps e m hok, List.countP_append,
    List.countP_eq_zero.mpr (by
      intro a ha
      obtain ⟨pn, _, rfl⟩ := List.mem_map.mp ha
      simp [Op.isSave])]
  rfl

/-- Under successful extraction, the persistence call is the last operation
of the event's trace. -/
theorem runCallback_save_last (ps : List String) (e : JSValue) (m : ModelState)
    (hok : ∀ pn ∈ ps, extractOk pn e = true) :
    (runCallback ps e m).2.1.getLast? = some Op.save := by
  rw [runCallback_trace_ops ps e m hok,
    show ps.map (fun pn => Op.set pn (extractD pn e))
        ++ [Op.set "count" (jsAddOne (getAttr (writeProps e ps m).1 "count")), Op.save]
      = (ps.map (fun pn => Op.set pn (extractD pn e))
        ++ [Op.set "count" (jsAddOne (getAttr (writeProps e ps m).1 "count"))]) ++ [Op.save]
      from by simp]
  exact List.getLast?_concat _

theorem jsIndex_obj_found (fields : List (String × JSValue)) (k : String)
    (pv : String × JSValue) (hf : fields.find? (fun p => p.1 = k) = some pv) :
    jsIndex (.obj fields) k = .ok pv.2 := by
  simp [jsIndex, hf]

theorem jsIndex_obj_none (fields : List (String × JSValue)) (k : String)
    (hmiss : ∀ p ∈ fields, p.1 ≠ k) :
    jsIndex (.obj fields) k = .ok .undefined := by
  have hnone : fields.find? (fun p => p.1 = k) = none :=
    List.find?_eq_none.mpr (fun p hp => by simpa using hmiss p hp)
  simp [jsIndex, hnone]

theorem getPropGetter_plain (name : String) (e : JSValue)
    (h : hasNoteTag name.data = false) :
    getPropGetter name e = jsIndex e (toCamelCase name) := by
  simp [getPropGetter, h]

theorem getPropGetter_note (name : String) (e : JSValue)
    (h : hasNoteTag name.data = true) :
    getPropGetter name e
      = (jsIndex e "note").bind
          (fun note => jsIndex note (toCamelCase (stripNoteTag name))) := by
  simp [getPropGetter, h]

/-- C4 counterexample: the path `note_identifier` addresses a field absent on
an event that carries no `note` sub-object, and extraction FAILS with a
`TypeError` (`(e.note)[...]` reads a property off `undefined`) instead of
yielding an absent value. -/
theorem note_path_missing_note_throws :
    getPropGetter "note_identifier" (.obj [("velocity", .num (4/5))])
      = .error .typeError := rfl

/-- C4 amended: property-path extraction is the pure function
`getPropGetter`; a plain name is camel-cased and read directly off the event
payload (yielding the field's value when present, `undefined` — written
through unchanged by the callback — when absent), and a `note_`-prefixed name
is read off the nested `note` sub-object under the camel-cased remainder
(yielding the nested field's value when present, `undefined` when the `note`
object is present but lacks the field); however, a `note_`-prefixed path
applied to an event carrying no `note` field fails with a `TypeError` instead
of yielding an absent value. -/
theorem prop_extraction_camelcase_nested_miss :
    (∀ (name : String) (fields : List (String × JSValue)) (pv : String × JSValue),
      hasNoteTag name.data = false →
      fields.find? (fun p => p.1 = toCamelCase name) = some pv →
      getPropGetter name (.obj fields) = .ok pv.2)
    ∧ (∀ (name : String) (fields : List (String × JSValue)),
      hasNoteTag name.data = false →
      (∀ p ∈ fields, p.1 ≠ toCamelCase name) →
      getPropGetter name (.obj fields) = .ok .undefined)
    ∧ (∀ (name : String) (fields nfields : List (String × JSValue))
        (pv : String × JSValue),
      hasNoteTag name.data = true →
      fields.find? (fun p => p.1 = "note") = some ("note", .obj nfields) →
      nfields.find? (fun p => p.1 = toCamelCase (stripNoteTag name)) = some pv →
      getPropGetter name (.obj fields) = .ok pv.2)
    ∧ (∀ (name : String) (fields nfields : List (String × JSValue)),
      hasNoteTag name.data = true →
      fields.find? (fun p => p.1 = "note") = some ("note", .obj nfields) →
      (∀ p ∈ nfields, p.1 ≠ toCamelCase (stripNoteTag name)) →
      getPropGetter name (.obj fields) = .ok .undefined)
    ∧ (∀ (name : String) (fields : List (String × JSValue)),
      hasNoteTag name.data = true →
      (∀ p ∈ fields, p.1 ≠ "note") →
      getPropGetter name (.obj fields) = .error .typeError)
    ∧ (∀ (name : String) (e : JSValue) (m : ModelState),
      getPropGetter name e = .ok .undefined → name ≠ "count" →
      getAttr (runCallback [name] e m).1 name = .undefined) := by
  refine ⟨?_, ?_, ?_, ?_, ?_, ?_⟩
  · intro name fields pv h hf
    rw [getPropGetter_plain _ _ h, jsIndex_obj_found _ _ _ hf]
  · intro name fields h hmiss
    rw [getPropGetter_plain _ _ h, jsIndex_obj_none _ _ hmiss]
  · intro name fields nfields pv h hn hf
    rw [getPropGetter_note _ _ h, jsIndex_obj_found _ _ _ hn]
    show jsIndex (.obj nfields) (toCamelCase (stripNoteTag name)) = _
    rw [jsIndex_obj_found _ _ _ hf]
  · intro name fields nfields h hn hmiss
    rw [getPropGetter_note _ _ h, jsIndex_obj_found _ _ _ hn]
    show jsIndex (.obj nfields) (toCamelCase (stripNoteTag name)) = _
    rw [jsIndex_obj_none _ _ hmiss]
  · intro name fields h hmiss
    rw [getPropGetter_note _ _ h, jsIndex_obj_none _ _ hmiss]
    rfl
  · intro name e m hex hnc
    have hok : ∀ pn ∈ [name], extractOk pn e = true := by
      intro pn hpn
      rw [List.mem_singleton] at hpn
      subst hpn
      simp [extractOk, hex]
    have heq := runCallback_eq [name] e m (writeProps_trace e [name] m hok).2
    rw [heq]
    rw [getAttr_saveChanges, getAttr_setAttr_ne _ _ _ _ hnc,
      writeProps_getAttr e [name] m hok name, if_pos (List.mem_singleton.mpr rfl)]
    simp [extractD, hex]

/-- Witness for C4 (amended) at concrete inputs: `velocity` read off the
payload (hit and miss), `note_identifier` read off the `note` object (hit and
miss), the `TypeError` on a note-less event, and the write-through of an
absent plain field. -/
theorem prop_extraction_camelcase_nested_miss_witness :
    getPropGetter "velocity" noteEvent = .ok (.num (4/5))
    ∧ getPropGetter "some_field" noteEvent = .ok .undefined
    ∧ getPropGetter "note_identifier" noteEvent = .ok (.num 60)
    ∧ getPropGetter "note_attack" noteEvent = .ok .undefined
    ∧ getPropGetter "note_identifier" (.obj [("velocity", .num (4/5))])
        = .error .typeError
    ∧ getAttr (runCallback ["some_field"] noteEvent modelC0).1 "some_field"
        = .undefined := by
  have h := prop_extraction_camelcase_nested_miss
  refine ⟨?_, ?_, ?_, ?_, ?_, ?_⟩
  · exact h.1 "velocity" _ ("velocity", .num (4/5)) rfl rfl
  · exact h.2.1 "some_field" _ rfl (by decide)
  · exact h.2.2.1 "note_identifier" _ [("identifier", .num 60)]
      ("identifier", .num 60) rfl rfl rfl
  · exact h.2.2.2.1 "note_attack" _ [("identifier", .num 60)] rfl rfl (by decide)
  · exact h.2.2.2.2.1 "note_identifier" _ rfl (by decide)
  · exact h.2.2.2.2.2 "some_field" noteEvent modelC0 (h.2.1 "some_field" _ rfl (by decide))
      (by decide)

/-- C6 counterexample: a hardware event with `timestamp = 123` is delivered to
a Subscription configured with no property paths; the callback runs to
completion (no throw, exactly one save) yet the model's `timestamp` attribute
still holds its old value `0`, not the event's timestamp — the callback never
touches `timestamp` on its own. -/
theorem callback_leaves_timestamp_unchanged :
    getAttr (runCallback [] noteEvent modelC0).1 "timestamp" = .num 0
    ∧ jsIndex noteEvent "timestamp" = .ok (.num 123)
    ∧ (runCallback [] noteEvent modelC0).2.2 = false
    ∧ (runCallback [] noteEvent modelC0).1.saves = 1 :=
  ⟨rfl, rfl, rfl, rfl⟩

/-- C6 amended: the callback writes the model's `timestamp` attribute exactly
when `timestamp` is among the configured property paths: in that case it is
set — like any declared property — to the event's `timestamp` value, with the
single persistence call coming last in the trace; when `timestamp` is not
declared, the attribute is left unchanged by the delivery. -/
theorem timestamp_written_only_when_declared
    (propNames : List String) (e : JSValue) (m : ModelState) (t : Rat)
    (hok : ∀ pn ∈ propNames, extractOk pn e = true)
    (ht : jsIndex e "timestamp" = .ok (.num t)) :
    ("timestamp" ∈ propNames →
      getAttr (runCallback propNames e m).1 "timestamp" = .num t
      ∧ (runCallback propNames e m).2.1.countP Op.isSave = 1
      ∧ (runCallback propNames e m).2.1.getLast? = some Op.save)
    ∧ ("timestamp" ∉ propNames →
      getAttr (runCallback propNames e m).1 "timestamp" = getAttr m "timestamp") := by
  have heq := runCallback_eq propNames e m (writeProps_trace e propNames m hok).2
  have hts : getPropGetter "timestamp" e = jsIndex e "timestamp" :=
    getPropGetter_plain "timestamp" e rfl
  constructor
  · intro hin
    refine ⟨?_, runCallback_single_save propNames e m hok,
      runCallback_save_last propNames e m hok⟩
    rw [heq, getAttr_saveChanges, getAttr_setAttr_ne _ _ _ _ (by decide),
      writeProps_getAttr e propNames m hok "timestamp", if_pos hin]
    simp [extractD, hts, ht]
  · intro hout
    rw [heq, getAttr_saveChanges, getAttr_setAttr_ne _ _ _ _ (by decide),
      writeProps_getAttr e propNames m hok "timestamp", if_neg hout]

/-- Witness for C6 (amended): with `timestamp` declared, delivering
`noteEvent` writes `timestamp = 123` and saves once, last; with it
undeclared, `timestamp` keeps its prior value. -/
theorem timestamp_written_only_when_declared_witness :
    getAttr (runCallback ["timestamp"] noteEvent modelC0).1 "timestamp" = .num 123
    ∧ (runCallback ["timestamp"] noteEvent modelC0).2.1.countP Op.isSave = 1
    ∧ (runCallback ["timestamp"] noteEvent modelC0).2.1.getLast? = some Op.save
    ∧ getAttr (runCallback ["velocity"] noteEvent modelC0).1 "timestamp"
        = getAttr modelC0 "timestamp" := by
  have h1 := timestamp_written_only_when_declared ["timestamp"] noteEvent modelC0 123
    (by decide) rfl
  have h2 := timestamp_written_only_when_declared ["velocity"] noteEvent modelC0 123
    (by decide) rfl
  exact ⟨(h1.1 (by decide)).1, (h1.1 (by decide)).2.1, (h1.1 (by decide)).2.2,
    h2.2 (by decide)⟩

theorem portsCount_initInterface (s : IfaceState) :
    portsCount (initInterface s) = 0 := by
  unfold portsCount initInterface
  rw [List.filter_filter, List.length_eq_zero, List.filter_eq_nil_iff]
  intro x _
  by_cases h : x.target = Target.webmidi <;> simp [h]

theorem portsCount_enable (inputs : List InputProps) (t : IfaceState) :
    portsCount (handleCommand inputs enableCmd t) = portsCount t + 1 := by
  show portsCount (enableCmdBody inputs t) = portsCount t + 1
  unfold portsCount enableCmdBody
  rw [List.filter_append, List.length_append]
  simp

theorem foldl_repub_saves (inputs : List InputProps) (l : List Attachment)
    (m : ModelState) :
    (l.foldl (fun acc _ => saveChanges (updateInputs inputs acc)) m).saves
      = m.saves + l.length := by
  induction l generalizing m with
  | nil => rfl
  | cons x rest ih =>
      rw [List.foldl_cons, ih]
      show (saveChanges (updateInputs inputs m)).saves + rest.length = _
      have : (saveChanges (updateInputs inputs m)).saves = m.saves + 1 := rfl
      rw [this, List.length_cons]
      omega

/-- C3 counterexample: after initialization, TWO successful `enable` commands
leave TWO standing `portschanged` listeners (each command's `.then` body adds
a fresh one; `WebMidi.enable()` resolves immediately when already enabled),
and the next topology change republishes the port snapshot twice (two
saves), not exactly once. -/
theorem second_enable_duplicates_ports_listener :
    portsCount (handleCommand [inputA] enableCmd
        (handleCommand [inputA] enableCmd (initInterface ifS0))) = 2
    ∧ (firePortsChanged [inputA] (handleCommand [inputA] enableCmd
          (handleCommand [inputA] enableCmd (initInterface ifS0)))).model.saves
        = (handleCommand [inputA] enableCmd
          (handleCommand [inputA] enableCmd (initInterface ifS0))).model.saves + 2 :=
  ⟨rfl, rfl⟩

/-- C3 amended: an `enable` command received while already enabled is NOT a
no-op: each successful `enable` command attaches one more `portschanged`
listener, so after `n` such commands since the last initialization exactly
`n` standing topology listeners exist, and a topology change republishes the
port snapshot once per standing listener (`n` times) — at most one standing
listener holds only while at most one `enable` command has been processed. -/
theorem enable_accumulates_ports_listeners (inputs : List InputProps)
    (s : IfaceState) (n : Nat) :
    portsCount ((handleCommand inputs enableCmd)^[n] (initInterface s)) = n
    ∧ ∀ t : IfaceState,
      (firePortsChanged inputs t).model.saves = t.model.saves + portsCount t := by
  constructor
  · induction n with
    | zero => exact portsCount_initInterface s
    | succ k ih =>
        rw [Function.iterate_succ_apply', portsCount_enable, ih]
  · intro t
    unfold firePortsChanged portsCount
    exact foldl_repub_saves inputs _ t.model

theorem handleCommand_unknown (inputs : List InputProps) (c : Command)
    (h : knownAction c.action = false) (t : IfaceState) :
    handleCommand inputs c t = t := by
  unfold knownAction at h
  simp only [Bool.or_eq_false_iff, decide_eq_false_iff_not] at h
  unfold handleCommand
  rw [if_neg h.1.1, if_neg h.1.2, if_neg h.2]

/-- C7 counterexample: a command whose action is `bogus` is silently
swallowed — the `msg:custom` handler has no fourth branch, so it returns
normally with the state untouched and no error is thrown or rejected. -/
theorem unknown_command_silently_ignored_concrete :
    handleCommand [inputA] ⟨"bogus", .noArgs⟩ ifS0 = ifS0 := rfl

/-- C7 amended: a command whose action is none of `enable`, `add_listener`
and `remove_listener` is silently ignored — the handler falls through every
branch, raises nothing and leaves the state unchanged — and the handling of
the other commands of a sequence is unaffected (processing a sequence equals
processing its known-action subsequence). -/
theorem unknown_commands_are_noops (inputs : List InputProps) (cs : List Command)
    (s : IfaceState) :
    (∀ c : Command, knownAction c.action = false →
      ∀ t : IfaceState, handleCommand inputs c t = t)
    ∧ runCommands inputs cs s
        = runCommands inputs (cs.filter (fun c => knownAction c.action)) s := by
  refine ⟨fun c h t => handleCommand_unknown inputs c h t, ?_⟩
  induction cs generalizing s with
  | nil => rfl
  | cons c rest ih =>
      rw [List.filter_cons]
      by_cases hk : knownAction c.action = true
      · rw [if_pos hk]
        show runCommands inputs rest (handleCommand inputs c s) = _
        exact ih (handleCommand inputs c s)
      · rw [if_neg hk]
        show runCommands inputs rest (handleCommand inputs c s) = _
        rw [handleCommand_unknown inputs c (Bool.eq_false_iff.mpr hk) s]
        exact ih s

/-- Witness for C7 (amended): a concrete `launch` command is a no-op and
dropping it from a sequence does not change the outcome. -/
theorem unknown_commands_are_noops_witness :
    handleCommand [inputA] ⟨"launch", .noArgs⟩ ifS0 = ifS0
    ∧ runCommands [inputA] [⟨"launch", .noArgs⟩, enableCmd] ifS0
        = runCommands [inputA] ([⟨"launch", .noArgs⟩, enableCmd].filter
            (fun c => knownAction c.action)) ifS0 := by
  have h := unknown_commands_are_noops [inputA] [⟨"launch", .noArgs⟩, enableCmd] ifS0
  exact ⟨h.1 ⟨"launch", .noArgs⟩ (by decide) ifS0, h.2⟩

/-- C8 counterexample: after an `add_listener` command attached a listener to
input port `A1`, re-running `unstable_initialize` empties the registry but
leaves that input-port listener attached: `WebMidi.removeListener()` clears
only the global object's listeners, and `events.clear()` drops the registry
entries without calling `.remove()` on their handles — the claimed clean
slate does not hold. -/
theorem init_leaves_input_port_listener_attached :
    (initInterface (handleCommand [inputA] addInputCmd ifS0)).attached
      = [⟨.input "A1", "noteon", some "abcdef", 0⟩]
    ∧ (initInterface (handleCommand [inputA] addInputCmd ifS0)).events = [] :=
  ⟨rfl, rfl⟩

/-- C8 amended: `initialize()` empties the Listener Registry (without
detaching the stored handles) and removes exactly the listeners attached to
the global `WebMidi` object: no global-object listener survives, while every
listener previously attached to a specific input port remains attached. -/
theorem init_clears_global_listeners_and_registry_only (s : IfaceState) :
    (initInterface s).events = []
    ∧ (∀ x ∈ (initInterface s).attached, x.target ≠ Target.webmidi)
    ∧ (∀ x ∈ s.attached, x.target ≠ Target.webmidi → x ∈ (initInterface s).attached) := by
  refine ⟨rfl, ?_, ?_⟩
  · intro x hx
    have := (List.mem_filter.mp hx).2
    simpa using this
  · intro x hx h
    exact List.mem_filter.mpr ⟨hx, by simpa using h⟩

/-- Witness for C8 (amended) at the concrete post-`add_listener` state: the
registry is emptied while the input-port attachment survives
initialization. -/
theorem init_clears_global_listeners_and_registry_only_witness :
    (initInterface (handleCommand [inputA] addInputCmd ifS0)).events = []
    ∧ (⟨.input "A1", "noteon", some "abcdef", 0⟩ : Attachment)
        ∈ (initInterface (handleCommand [inputA] addInputCmd ifS0)).attached := by
  have h := init_clears_global_listeners_and_registry_only
    (handleCommand [inputA] addInputCmd ifS0)
  exact ⟨h.1, h.2.2 ⟨.input "A1", "noteon", some "abcdef", 0⟩ (by decide) (by decide)⟩

theorem findKey_delKey (m : List (String × LVal)) (k : String) :
    findKey (delKey m k) k = none := by
  unfold findKey delKey
  rw [List.find?_eq_none.mpr (fun p hp => by
    simpa using (List.mem_filter.mp hp).2)]
  rfl

theorem removeListenerCmd_absent (s : IfaceState) (a : RemoveListenerArgs)
    (h : findKey s.events a.event_id = none) :
    removeListenerCmd a s = s := by
  unfold removeListenerCmd
  rw [h]

theorem removeListenerCmd_findKey_none (s : IfaceState) (a : RemoveListenerArgs) :
    findKey (removeListenerCmd a s).events a.event_id = none := by
  unfold removeListenerCmd
  cases hk : findKey s.events a.event_id with
  | none => exact hk
  | some v =>
      cases v with
      | single l => exact findKey_delKey s.events a.event_id
      | multi ls => exact findKey_delKey s.events a.event_id

/-- C9: `removeListener` is idempotent.  Calling it twice with the same
identifier equals calling it once; an absent identifier makes the call
succeed silently with the state unchanged; a present identifier's registry
entry is deleted and each of its stored handles is detached from whatever
emitter held it. -/
theorem remove_listener_idempotent (s : IfaceState) (a : RemoveListenerArgs) :
    removeListenerCmd a (removeListenerCmd a s) = removeListenerCmd a s
    ∧ (findKey s.events a.event_id = none → removeListenerCmd a s = s)
    ∧ findKey (removeListenerCmd a s).events a.event_id = none
    ∧ (∀ l ∈ regHandles s a.event_id, ∀ x ∈ (removeListenerCmd a s).attached,
        x.handle ≠ l) := by
  refine ⟨removeListenerCmd_absent _ a (removeListenerCmd_findKey_none s a),
    removeListenerCmd_absent s a, removeListenerCmd_findKey_none s a, ?_⟩
  intro l hl x hx
  unfold regHandles at hl
  unfold removeListenerCmd at hx
  cases hk : findKey s.events a.event_id with
  | none => rw [hk] at hl; exact absurd hl (List.not_mem_nil l)
  | some v =>
      rw [hk] at hl hx
      cases v with
      | single l' =>
          rw [List.mem_singleton] at hl
          subst hl
          have := (List.mem_filter.mp hx).2
          simpa using this
      | multi ls =>
          have hnot : ¬ x.handle ∈ ls := by
            have := (List.mem_filter.mp hx).2
            simpa using this
          intro he
          exact hnot (he ▸ hl)

/-- Witness for C9 at a concrete registry state: removing `x` twice equals
removing it once and leaves no entry; removing a missing identifier is a
silent no-op. -/
theorem remove_listener_idempotent_witness :
    removeListenerCmd ⟨"x"⟩ (removeListenerCmd ⟨"x"⟩ ifS2) = removeListenerCmd ⟨"x"⟩ ifS2
    ∧ findKey (removeListenerCmd ⟨"x"⟩ ifS2).events "x" = none
    ∧ removeListenerCmd ⟨"missing"⟩ ifS2 = ifS2 := by
  have h := remove_listener_idempotent ifS2 ⟨"x"⟩
  have h2 := remove_listener_idempotent ifS2 ⟨"missing"⟩
  exact ⟨h.1, h.2.2.1, h2.2.1 rfl⟩

/-- C10: the remote event-model id sent with `add_listener` is resolved by
unconditionally dropping the first ten characters (the length of
`IPY_MODEL_`) before the widget-manager look-up: an id carrying the prefix
resolves to the intended bare id; an id of any shape loses its first ten
characters regardless (e.g. a short unprefixed id is wiped out entirely); and
the attachment recorded by `add_listener` carries exactly that resolved
id. -/
theorem model_id_resolution_drops_ten_chars :
    (∀ s : String, resolveModelId ("IPY_MODEL_" ++ s) = s)
    ∧ (∀ modelId : String, resolveModelId modelId = ⟨modelId.data.drop 10⟩)
    ∧ resolveModelId "shortid" = ""
    ∧ (∀ (a : AddListenerArgs) (st : IfaceState),
        (addListenerCmd a st).attached = st.attached ++
          [⟨resolveTarget a, a.event_name, some (resolveModelId a.event_model_id),
            st.nextId⟩]) := by
  refine ⟨?_, fun modelId => rfl, rfl, fun a st => rfl⟩
  intro s
  unfold resolveModelId
  apply String.ext
  show (("IPY_MODEL_" ++ s).data.drop 10) = s.data
  rw [String.data_append,
    show (10 : Nat) = "IPY_MODEL_".data.length from rfl, List.drop_left]
